import Mathlib

/-!
Verification of certomat (src/main.go) against its specification.

The program is a small HTTPS gateway: it serves its own certificate via an
autocert manager gated by a host whitelist, and turns client CSRs into
certificates by invoking the external certbot agent, serialized by a
process-wide mutex.

Strings manipulated character-by-character by the policy gate are modelled
as `List Char`; the Unicode-aware lower-casing of Go is modelled by
`Char.toLower` (ASCII), which is the same map on both the code side and the
spec side of every statement below, so no statement depends on the exact
character map.  Byte sequences (CSR bodies, certificate files) are modelled
as `List Nat`.  Effectful steps of the HTTP handler (file I/O, the certbot
subprocess) are modelled by an environment of step outcomes and a trace of
emitted events.
-/

namespace Certomat

/-! ## Domain Policy Gate (src/main.go lines 30-58) -/

/-- Go `strings.Split(host, ".")` on a character list: splits around every
occurrence of the dot, keeping empty fields; `splitDot [] = [[]]` just as
`strings.Split("", ".") = [""]`. -/
def splitDot : List Char → List (List Char)
  | [] => [[]]
  | c :: rest =>
    if c = '.' then [] :: splitDot rest
    else match splitDot rest with
      | [] => [[c]]
      | l :: ls => (c :: l) :: ls

/-- Go `strings.Join(xs, ".")`: interleave the fields with single dots. -/
def joinDot : List (List Char) → List Char
  | [] => []
  | [l] => l
  | l :: ls => l ++ '.' :: joinDot ls

/-- Lines 43-46 of the closure in `HostWhitelistByDomains`: strip one
trailing dot (`strings.HasSuffix(host, ".")` then `host[0:len(host)-1]`),
then lower-case the result (`strings.ToLower`). -/
def stripLower (host : List Char) : List Char :=
  (if host.getLast? = some '.' then host.dropLast else host).map Char.toLower

/-- The two rejection values produced by the policy gate, named after the
error taxonomy of the spec.  `malformedHost h` stands for the Go error
built by `getDomain` at line 35 (host has no dots); `policyDenied d` stands
for the error built at line 56 (domain not allowed). -/
inductive HostPolicyError where
  | malformedHost (host : List Char)
  | policyDenied (dom : List Char)
  deriving DecidableEq

/-- `getDomain` (lines 30-37): split the host on dots; with more than one
label return all labels but the first rejoined with dots, otherwise the
"has no dots" error. -/
def getDomain (host : List Char) : Except HostPolicyError (List Char) :=
  let x := splitDot host
  if x.length > 1 then .ok (joinDot x.tail)
  else .error (.malformedHost host)

/-- The closure returned by `HostWhitelistByDomains` (lines 39-58).  The Go
`map[string]bool` whitelist is modelled by the list of keys that map to
`true` (the program only ever stores `true`); the Go lookup `doms[dom]` is
`doms.contains dom`.  Returns `.ok ()` where the Go closure returns `nil`. -/
def hostWhitelistByDomains (doms : List (List Char)) (host : List Char) :
    Except HostPolicyError Unit :=
  match getDomain (stripLower host) with
  | .error e => .error e
  | .ok dom => if doms.contains dom then .ok () else .error (.policyDenied dom)

/-- The authorization predicate exactly as the words of the spec state it
(for comparison with `hostWhitelistByDomains`): after stripping one
trailing dot and lower-casing, the host must split into at least two labels
and the base domain — all labels except the leftmost, rejoined with dots —
must be a member of the DomainSet. -/
def authorizeSpec (doms : List (List Char)) (h : List Char) : Bool :=
  let labels := splitDot (stripLower h)
  decide (2 ≤ labels.length) && doms.contains (joinDot labels.tail)

/-! ## DomainSet construction at startup (src/main.go lines 181-187) -/

/-- Lines 185-187 of `main`: the whitelist map holds exactly the configured
flag value, verbatim (no lower-casing and no trailing-dot stripping is
applied to it).  `main` reaches this line only when the flag value is
non-empty (line 181). -/
def mkDomainNames (domain : List Char) : List (List Char) := [domain]

/-- The DomainSet invariant as the spec states it: non-empty, and every
entry is lower-case with no trailing separator. -/
def domainSetInvariant (doms : List (List Char)) : Prop :=
  doms ≠ [] ∧ ∀ d ∈ doms, d.map Char.toLower = d ∧ d.getLast? ≠ some '.'

/-! ## CSR name extraction (src/main.go lines 60-66) -/

/-- `getNameFromCSR`: `x509.ParseCertificateRequest` is an external-library
capability, modelled by an oracle `parse` returning `some commonName` on
success and `none` on a parse error; on a parse error the function returns
the empty string. -/
def getNameFromCSR (parse : List Nat → Option String) (csr : List Nat) : String :=
  match parse csr with
  | none => ""
  | some cn => cn

/-! ## certbot invocation arguments and directory URL -/

/-- The argument list built at lines 113-121: the fixed certbot arguments,
with the test-certificate flag appended exactly when `prod` is unset. -/
def certbotArgs (certomatFqdn tmpName name : String) (prod : Bool) : List String :=
  let args := ["certbot", "certonly", "--standalone",
    "--http-01-addr", certomatFqdn,
    "--csr", tmpName, "--config-dir", "./config",
    "--work-dir", "./work", "--logs-dir", "./logs",
    "--non-interactive", "--preferred-challenges", "http",
    "-d", name]
  if !prod then args ++ ["--test-cert"] else args

/-- Lines 192-195 of `main`: the ACME directory URL defaults to the empty
string (selecting the production API) and is set to the staging URL when
`prod` is unset. -/
def dirUrl (prod : Bool) : String :=
  if !prod then "https://acme-staging.api.letsencrypt.org/directory" else ""

/-! ## The package-level certomatFqdn and its shadowing (lines 170, 188) -/

/-- Line 170: the package-level variable `certomatFqdn`, zero value. -/
def certomatFqdnInit : String := ""

/-- Line 188 of `main`, where the gateway FQDN is computed with
`fmt.Sprintf("certomat.%v", *domain)`.  The short declaration written there
introduces a NEW local variable that shadows the package-level
`certomatFqdn`, which is therefore never assigned.  Returns the pair
(package variable after startup, the shadowing local). -/
def mainCertomatFqdn (domain : String) : String × String :=
  let localFqdn := "certomat." ++ domain
  (certomatFqdnInit, localFqdn)

/-! ## The issuance handler getHandler (src/main.go lines 79-167)

The handler is straight-line code whose effectful steps can each succeed or
fail; `Env` records the outcome of every such step and `getHandler` emits
the trace of observable events exactly in the order the Go code performs
them.  The two deferred calls (line 101 `os.Remove`, line 137 the mutex
release) run in LIFO order at every exit point, so every trace that reaches
the lock ends with `unlock` then `removeTemp`, and every trace that created
the temp file ends with `removeTemp`. -/

/-- Observable events of one `getHandler` run.  `httpError code why` is the
helper at lines 68-71; `readCertFile` records that the well-known output
file 0000_cert.pem was read successfully at line 152; `cleanupResults` is
the best-effort removal of transient certbot output at lines 163-166. -/
inductive Ev where
  | httpError (code : Nat) (why : String)
  | createTemp (name : String)
  | lock
  | agentStart (args : List String)
  | agentWait
  | readCertFile
  | setHeader (key value : String)
  | writeBody (b : List Nat)
  | cleanupResults
  | unlock
  | removeTemp (name : String)
  deriving DecidableEq

/-- Outcomes of the effectful steps of the handler for one request.
`parseCSR` is the `x509.ParseCertificateRequest` oracle; `wait = some e`
means `cmd.Wait()` returned a non-zero-exit error `e`; `certomatFqdn` is
the value of the package-level variable read at line 114. -/
structure Env where
  method : String
  readBody : Except String (List Nat)
  parseCSR : List Nat → Option String
  tempFile : Except String String
  writeTemp : Option String
  closeTemp : Option String
  lookPath : Except String String
  start : Option String
  wait : Option String
  readCert : Except String (List Nat)
  prod : Bool
  certomatFqdn : String

/-- `getHandler` (lines 79-167), translated step by step.  Note the missing
return after the 405 response at lines 82-84: on a non-POST request the
handler emits the 405 error and then CONTINUES with the rest of the body,
exactly as the Go code does. -/
def getHandler (env : Env) : List Ev :=
  (if env.method ≠ "POST" then [Ev.httpError 405 "post only"] else []) ++
  match env.readBody with
  | .error e => [Ev.httpError 500 e]
  | .ok csr =>
    let name := getNameFromCSR env.parseCSR csr
    match env.tempFile with
    | .error e => [Ev.httpError 500 e]
    | .ok tmpName =>
      Ev.createTemp tmpName ::
      ((match env.writeTemp with
        | some e => [Ev.httpError 500 e]
        | none =>
          match env.closeTemp with
          | some e => [Ev.httpError 500 e]
          | none =>
            match env.lookPath with
            | .error e => [Ev.httpError 500 e]
            | .ok _ =>
              Ev.lock ::
              match env.start with
              | some e => [Ev.httpError 500 e, Ev.unlock]
              | none =>
                Ev.agentStart (certbotArgs env.certomatFqdn tmpName name env.prod) ::
                Ev.agentWait ::
                match env.wait with
                | some e => [Ev.httpError 500 ("certbot result code: " ++ e), Ev.unlock]
                | none =>
                  match env.readCert with
                  | .error e => [Ev.httpError 500 ("cannot read cert: " ++ e), Ev.unlock]
                  | .ok cert =>
                    [Ev.readCertFile,
                     Ev.setHeader "Content-Type" "text/plain",
                     Ev.writeBody cert, Ev.cleanupResults, Ev.unlock])
        ++ [Ev.removeTemp tmpName])

/-! ## The certbotMu mutex (line 73) and concurrent invocations

Two concurrent request handlers interleave their steps; the semantics of
`sync.Mutex`: `Lock` proceeds only when the mutex is free, `Unlock`
releases it.  A program of one thread is the list of its instructions;
`MStep p1 p2` is one interleaving step of two threads running programs
`p1` and `p2`. -/

/-- Instructions of the concurrency model: mutex operations and abstract
work steps (tagged). -/
inductive MInstr where
  | lock
  | unlock
  | work (tag : Nat)
  deriving DecidableEq

/-- The certbotMu critical section of one issuance call (lines 136-158):
acquire the mutex; start the agent (`cmd.Start()`, tag 0); wait for its
exit (`cmd.Wait()`, tag 1); read the result file (`ioutil.ReadFile`,
tag 2); the deferred release of the mutex. -/
def critProg : List MInstr := [.lock, .work 0, .work 1, .work 2, .unlock]

/-- The self-certificate renewal path: `main` (lines 215-232) wires
`mgr.GetCertificate` of the external autocert manager directly into the
TLS config; no certbotMu operation appears anywhere on this path in
src/main.go (certbotMu is referenced only at lines 73, 136 and 137).  The
issuance exchange inside the external manager is a capability spanning
time, modelled as two work steps (begin, tag 3; end, tag 4) with no lock
around them. -/
def renewalProg : List MInstr := [.work 3, .work 4]

/-- State of two interleaved threads: program counter of each thread, plus
the mutex holder (`none` free, `some false` thread 1, `some true`
thread 2). -/
structure MSys where
  pc1 : Nat
  pc2 : Nat
  holder : Option Bool
  deriving DecidableEq

/-- One interleaving step of thread 1 (running `p1`) or thread 2 (running
`p2`), with `sync.Mutex` semantics for lock and unlock instructions. -/
inductive MStep (p1 p2 : List MInstr) : MSys → MSys → Prop where
  | lock1 (s : MSys) (h : p1.get? s.pc1 = some .lock) (hf : s.holder = none) :
      MStep p1 p2 s { pc1 := s.pc1 + 1, pc2 := s.pc2, holder := some false }
  | unlock1 (s : MSys) (h : p1.get? s.pc1 = some .unlock) (hh : s.holder = some false) :
      MStep p1 p2 s { pc1 := s.pc1 + 1, pc2 := s.pc2, holder := none }
  | work1 (s : MSys) (k : Nat) (h : p1.get? s.pc1 = some (.work k)) :
      MStep p1 p2 s { pc1 := s.pc1 + 1, pc2 := s.pc2, holder := s.holder }
  | lock2 (s : MSys) (h : p2.get? s.pc2 = some .lock) (hf : s.holder = none) :
      MStep p1 p2 s { pc1 := s.pc1, pc2 := s.pc2 + 1, holder := some true }
  | unlock2 (s : MSys) (h : p2.get? s.pc2 = some .unlock) (hh : s.holder = some true) :
      MStep p1 p2 s { pc1 := s.pc1, pc2 := s.pc2 + 1, holder := none }
  | work2 (s : MSys) (k : Nat) (h : p2.get? s.pc2 = some (.work k)) :
      MStep p1 p2 s { pc1 := s.pc1, pc2 := s.pc2 + 1, holder := s.holder }

/-- Reachability from the initial state (both threads at their first
instruction, mutex free). -/
inductive Reach (p1 p2 : List MInstr) : MSys → Prop where
  | init : Reach p1 p2 { pc1 := 0, pc2 := 0, holder := none }
  | step {s t : MSys} : Reach p1 p2 s → MStep p1 p2 s t → Reach p1 p2 t

/-- A thread running `critProg` is mid-invocation (has locked and not yet
unlocked, i.e. between agent start and result read inclusive) when its
program counter is in the interval from 1 to 4. -/
def inCrit (pc : Nat) : Prop := 1 ≤ pc ∧ pc ≤ 4

/-! ## Helper lemmas -/

lemma critProg_get_unlock {n : Nat} (h : critProg.get? n = some .unlock) : n = 4 := by
  rcases n with _ | _ | _ | _ | _ | n <;> simp_all [critProg]

lemma critProg_get_work {n k : Nat} (h : critProg.get? n = some (.work k)) :
    1 ≤ n ∧ n ≤ 3 := by
  rcases n with _ | _ | _ | _ | _ | n <;> simp_all [critProg] <;> omega

/-- Invariant of two issuance calls racing on certbotMu: a thread is inside
the critical section exactly while it holds the mutex. -/
lemma reach_crit_crit_inv {s : MSys} (h : Reach critProg critProg s) :
    (inCrit s.pc1 → s.holder = some false) ∧ (inCrit s.pc2 → s.holder = some true) := by
  induction h with
  | init =>
    exact ⟨fun hc => absurd hc.1 (by simp), fun hc => absurd hc.1 (by simp)⟩
  | step hr hst ih =>
    cases hst with
    | lock1 hg hf =>
      refine ⟨fun _ => rfl, fun hc => ?_⟩
      have h2 := ih.2 hc
      rw [hf] at h2
      cases h2
    | unlock1 hg hh =>
      have h4 := critProg_get_unlock hg
      refine ⟨fun hc => ?_, fun hc => ?_⟩
      · simp only [inCrit] at hc
        omega
      · have h2 := ih.2 hc
        rw [hh] at h2
        cases h2
    | work1 k hg =>
      have hw := critProg_get_work hg
      exact ⟨fun _ => ih.1 ⟨hw.1, by omega⟩, ih.2⟩
    | lock2 hg hf =>
      refine ⟨fun hc => ?_, fun _ => rfl⟩
      have h1 := ih.1 hc
      rw [hf] at h1
      cases h1
    | unlock2 hg hh =>
      have h4 := critProg_get_unlock hg
      refine ⟨fun hc => ?_, fun hc => ?_⟩
      · have h1 := ih.1 hc
        rw [hh] at h1
        cases h1
      · simp only [inCrit] at hc
        omega
    | work2 k hg =>
      have hw := critProg_get_work hg
      exact ⟨ih.1, fun _ => ih.2 ⟨hw.1, by omega⟩⟩

/-- An interleaving of one issuance call and one renewal in which the
renewal has begun its issuance exchange (work tag 3 done, tag 4 pending)
while the issuance call holds the mutex and is mid-invocation. -/
lemma c4_reach_state :
    Reach critProg renewalProg { pc1 := 2, pc2 := 1, holder := some false } := by
  have s1 : Reach critProg renewalProg { pc1 := 1, pc2 := 0, holder := some false } :=
    Reach.step Reach.init (MStep.lock1 _ rfl rfl)
  have s2 : Reach critProg renewalProg { pc1 := 2, pc2 := 0, holder := some false } :=
    Reach.step s1 (MStep.work1 _ 0 rfl)
  exact Reach.step s2 (MStep.work2 _ 3 rfl)

/-! ## Claim theorems -/

/-- Claim C1: for every host, the policy gate accepts exactly when, after
stripping one trailing dot and lower-casing, the host splits on dots into
at least two labels and the base domain (all labels except the leftmost,
rejoined) is a member of the DomainSet; with fewer than two labels the
result is the MalformedHost rejection, and otherwise a non-member base
domain is rejected with PolicyDenied. -/
theorem c1_authorize_iff (doms : List (List Char)) (h : List Char) :
    (hostWhitelistByDomains doms h = .ok () ↔ authorizeSpec doms h = true)
    ∧ ((splitDot (stripLower h)).length < 2 →
        hostWhitelistByDomains doms h = .error (.malformedHost (stripLower h)))
    ∧ (2 ≤ (splitDot (stripLower h)).length →
        doms.contains (joinDot (splitDot (stripLower h)).tail) = false →
        hostWhitelistByDomains doms h =
          .error (.policyDenied (joinDot (splitDot (stripLower h)).tail))) := by
  by_cases hlen : (splitDot (stripLower h)).length > 1
  · by_cases hc : doms.contains (joinDot (splitDot (stripLower h)).tail)
    · refine ⟨?_, ?_, ?_⟩
      · simp [hostWhitelistByDomains, getDomain, authorizeSpec, hlen, hc]
        exact fun _ => hlen
      · intro hlt; omega
      · intro _ hfc; rw [hc] at hfc; cases hfc
    · refine ⟨?_, ?_, ?_⟩
      · simp [hostWhitelistByDomains, getDomain, authorizeSpec, hlen, hc]
        exact fun _ => hlen
      · intro hlt; omega
      · intro _ _
        simp [hostWhitelistByDomains, getDomain, hlen, hc]
        simpa using hc
  · refine ⟨?_, ?_, ?_⟩
    · simp [hostWhitelistByDomains, getDomain, authorizeSpec, hlen]
      omega
    · intro _; simp [hostWhitelistByDomains, getDomain, hlen]
    · intro hge _; omega

/-- Witness for C1: a dotless host is rejected as malformed, and a host
whose base domain is not whitelisted is rejected as denied. -/
theorem c1_witness :
    ((splitDot (stripLower "nodotsonly".toList)).length < 2 ∧
      hostWhitelistByDomains ["example.com".toList] "nodotsonly".toList =
        .error (.malformedHost (stripLower "nodotsonly".toList))) ∧
    (2 ≤ (splitDot (stripLower "evil.com".toList)).length ∧
      hostWhitelistByDomains ["example.com".toList] "evil.com".toList =
        .error (.policyDenied (joinDot (splitDot (stripLower "evil.com".toList)).tail))) :=
  ⟨⟨by decide, (c1_authorize_iff ["example.com".toList] "nodotsonly".toList).2.1 (by decide)⟩,
   ⟨by decide, (c1_authorize_iff ["example.com".toList] "evil.com".toList).2.2
      (by decide) (by decide)⟩⟩

/-- Claim C2 (code bug): the 405 branch at lines 82-84 is not followed by a
return, so a non-POST request is answered 405 and the handler nevertheless
reads the body, stages the CSR temp file, locks the mutex and invokes the
agent.  Evaluated at a concrete GET request whose subsequent steps all
succeed: the trace begins with the 405 response and still contains the
complete issuance sequence. -/
theorem c2_nonpost_still_processes :
    getHandler
      { method := "GET", readBody := .ok [1, 2, 3],
        parseCSR := fun _ => none, tempFile := .ok "/tmp/csr1",
        writeTemp := none, closeTemp := none,
        lookPath := .ok "/usr/bin/certbot", start := none, wait := none,
        readCert := .ok [10], prod := true, certomatFqdn := "" } =
      [Ev.httpError 405 "post only", Ev.createTemp "/tmp/csr1", Ev.lock,
       Ev.agentStart (certbotArgs "" "/tmp/csr1" "" true), Ev.agentWait,
       Ev.readCertFile, Ev.setHeader "Content-Type" "text/plain",
       Ev.writeBody [10], Ev.cleanupResults, Ev.unlock,
       Ev.removeTemp "/tmp/csr1"] := by
  rfl

/-- Claim C3: within one issuance call the mutex is acquired before the
agent subprocess is started and released only after the subprocess has
exited and the result certificate file has been read (first conjunct: the
full success trace, in order); and in any interleaving of two issuance
calls the mutex admits at most one of them mid-invocation at any reachable
state (second conjunct), so the agent observes the two invocations as
strictly sequential. -/
theorem c3_serialized :
    (∀ (env : Env) (csr : List Nat) (t p : String) (c : List Nat),
      env.method = "POST" → env.readBody = .ok csr → env.tempFile = .ok t →
      env.writeTemp = none → env.closeTemp = none → env.lookPath = .ok p →
      env.start = none → env.wait = none → env.readCert = .ok c →
      getHandler env =
        [Ev.createTemp t, Ev.lock,
         Ev.agentStart (certbotArgs env.certomatFqdn t
           (getNameFromCSR env.parseCSR csr) env.prod),
         Ev.agentWait, Ev.readCertFile,
         Ev.setHeader "Content-Type" "text/plain",
         Ev.writeBody c, Ev.cleanupResults, Ev.unlock, Ev.removeTemp t]) ∧
    (∀ s : MSys, Reach critProg critProg s → ¬(inCrit s.pc1 ∧ inCrit s.pc2)) := by
  constructor
  · intro env csr t p c hm hrb htf hwt hct hlp hst hwa hrc
    rcases env with ⟨m, rb, pc, tf, wt, ct, lp, st, wa, rc, pr, fq⟩
    simp only at hm hrb htf hwt hct hlp hst hwa hrc
    subst hm hrb htf hwt hct hlp hst hwa hrc
    simp [getHandler]
  · rintro s hr ⟨h1, h2⟩
    have hi := reach_crit_crit_inv hr
    have ha := hi.1 h1
    have hb := hi.2 h2
    rw [ha] at hb
    cases hb

/-- Witness for C3: the success-path trace at a concrete environment, and
mutual exclusion evaluated at the initial state. -/
theorem c3_witness :
    getHandler
      { method := "POST", readBody := .ok [1],
        parseCSR := fun _ => some "x.example.com", tempFile := .ok "/tmp/csr2",
        writeTemp := none, closeTemp := none,
        lookPath := .ok "/usr/bin/certbot", start := none, wait := none,
        readCert := .ok [7], prod := false,
        certomatFqdn := "certomat.example.com" } =
      [Ev.createTemp "/tmp/csr2", Ev.lock,
       Ev.agentStart (certbotArgs "certomat.example.com" "/tmp/csr2"
         "x.example.com" false),
       Ev.agentWait, Ev.readCertFile, Ev.setHeader "Content-Type" "text/plain",
       Ev.writeBody [7], Ev.cleanupResults, Ev.unlock, Ev.removeTemp "/tmp/csr2"] ∧
    ¬(inCrit 0 ∧ inCrit 0) :=
  ⟨c3_serialized.1 _ [1] "/tmp/csr2" "/usr/bin/certbot" [7]
     rfl rfl rfl rfl rfl rfl rfl rfl rfl,
   c3_serialized.2 { pc1 := 0, pc2 := 0, holder := none } Reach.init⟩

/-- Counterexample for C4: the claim that renewal and issuance are funneled
through one shared token and never run simultaneously is false on this
code.  In the interleaving semantics of the two paths actually present in
src/main.go — the issuance critical section and the lock-free renewal
path — a state is reachable in which the issuance call is mid-invocation
(mutex held) while the renewal is mid-exchange. -/
theorem c4_counterexample :
    ¬(∀ s : MSys, Reach critProg renewalProg s → ¬(inCrit s.pc1 ∧ s.pc2 = 1)) := by
  intro hclaim
  exact hclaim { pc1 := 2, pc2 := 1, holder := some false } c4_reach_state
    ⟨by constructor <;> simp [inCrit], rfl⟩

/-- Claim C4 as amended: the renewal path acquires no certbotMu operation
at all (it is wired straight into the TLS config at lines 215-232), so
self-certificate renewal and a CSR issuance call are NOT funneled through
one shared serialization point: an interleaving is reachable in which both
are in flight simultaneously. -/
theorem c4_no_shared_token :
    (MInstr.lock ∉ renewalProg ∧ MInstr.unlock ∉ renewalProg) ∧
    (∃ s : MSys, Reach critProg renewalProg s ∧ inCrit s.pc1 ∧ s.pc2 = 1) :=
  ⟨⟨by decide, by decide⟩,
   ⟨{ pc1 := 2, pc2 := 1, holder := some false }, c4_reach_state,
    by constructor <;> simp [inCrit], rfl⟩⟩

/-- Claim C5: once the temp CSR file is created, the deferred removal at
line 101 deletes it on every exit path (first conjunct: any trace
containing the creation also contains the removal); and a call in which
the agent exits non-zero produces the 500 response whose body carries the
failure detail, removes the temp file, and writes no certificate (second
conjunct: the exact trace of the agent-failure path). -/
theorem c5_temp_cleanup :
    (∀ (env : Env) (t : String),
      Ev.createTemp t ∈ getHandler env → Ev.removeTemp t ∈ getHandler env) ∧
    (∀ (env : Env) (csr : List Nat) (t p e : String),
      env.method = "POST" → env.readBody = .ok csr → env.tempFile = .ok t →
      env.writeTemp = none → env.closeTemp = none → env.lookPath = .ok p →
      env.start = none → env.wait = some e →
      getHandler env =
        [Ev.createTemp t, Ev.lock,
         Ev.agentStart (certbotArgs env.certomatFqdn t
           (getNameFromCSR env.parseCSR csr) env.prod),
         Ev.agentWait, Ev.httpError 500 ("certbot result code: " ++ e),
         Ev.unlock, Ev.removeTemp t]) := by
  constructor
  · intro env t
    rcases env with ⟨m, rb, pc, tf, wt, ct, lp, st, wa, rc, pr, fq⟩
    rcases rb with e | csr <;>
    rcases tf with e2 | tn <;>
    rcases wt with _ | e3 <;>
    rcases ct with _ | e4 <;>
    rcases lp with e5 | p <;>
    rcases st with _ | e6 <;>
    rcases wa with _ | e7 <;>
    rcases rc with e8 | cert <;>
    simp only [getHandler] <;> split <;> simp
  · intro env csr t p e hm hrb htf hwt hct hlp hst hwa
    rcases env with ⟨m, rb, pc, tf, wt, ct, lp, st, wa, rc, pr, fq⟩
    simp only at hm hrb htf hwt hct hlp hst hwa
    subst hm hrb htf hwt hct hlp hst hwa
    simp [getHandler]

/-- Witness for C5: cleanup after a temp-write failure, and the exact
agent-failure trace at a concrete environment. -/
theorem c5_witness :
    Ev.removeTemp "/tmp/csr3" ∈ getHandler
      { method := "POST", readBody := .ok [1], parseCSR := fun _ => none,
        tempFile := .ok "/tmp/csr3", writeTemp := some "disk full",
        closeTemp := none, lookPath := .ok "/usr/bin/certbot", start := none,
        wait := none, readCert := .ok [9], prod := false,
        certomatFqdn := "" } ∧
    getHandler
      { method := "POST", readBody := .ok [1], parseCSR := fun _ => none,
        tempFile := .ok "/tmp/csr3", writeTemp := none, closeTemp := none,
        lookPath := .ok "/usr/bin/certbot", start := none,
        wait := some "exit status 1", readCert := .error "no file",
        prod := false, certomatFqdn := "" } =
      [Ev.createTemp "/tmp/csr3", Ev.lock,
       Ev.agentStart (certbotArgs "" "/tmp/csr3" "" false), Ev.agentWait,
       Ev.httpError 500 ("certbot result code: " ++ "exit status 1"),
       Ev.unlock, Ev.removeTemp "/tmp/csr3"] :=
  ⟨c5_temp_cleanup.1 _ "/tmp/csr3" (by decide),
   c5_temp_cleanup.2 _ [1] "/tmp/csr3" "/usr/bin/certbot" "exit status 1"
     rfl rfl rfl rfl rfl rfl rfl rfl⟩

/-- Claim C6: a byte sequence that does not parse as a certificate request
yields the empty name (first conjunct), and the issuance call then proceeds
— stages the CSR and invokes the agent with an empty target name — with no
HTTP error produced by the parse failure itself (second conjunct: when all
other steps succeed, the trace is the full success trace with the empty
name passed after the target-name argument). -/
theorem c6_parse_failure_graceful :
    (∀ (parse : List Nat → Option String) (csr : List Nat),
      parse csr = none → getNameFromCSR parse csr = "") ∧
    (∀ (env : Env) (csr : List Nat) (t p : String) (c : List Nat),
      env.method = "POST" → env.readBody = .ok csr → env.parseCSR csr = none →
      env.tempFile = .ok t → env.writeTemp = none → env.closeTemp = none →
      env.lookPath = .ok p → env.start = none → env.wait = none →
      env.readCert = .ok c →
      getHandler env =
        [Ev.createTemp t, Ev.lock,
         Ev.agentStart (certbotArgs env.certomatFqdn t "" env.prod),
         Ev.agentWait, Ev.readCertFile,
         Ev.setHeader "Content-Type" "text/plain",
         Ev.writeBody c, Ev.cleanupResults, Ev.unlock, Ev.removeTemp t]) := by
  constructor
  · intro parse csr hp
    simp [getNameFromCSR, hp]
  · intro env csr t p c hm hrb hp htf hwt hct hlp hst hwa hrc
    rcases env with ⟨m, rb, pc, tf, wt, ct, lp, st, wa, rc, pr, fq⟩
    simp only at hm hrb hp htf hwt hct hlp hst hwa hrc
    subst hm hrb htf hwt hct hlp hst hwa hrc
    simp [getHandler, getNameFromCSR, hp]

/-- Witness for C6: a concrete unparsable body leads to the full success
trace with the empty target name. -/
theorem c6_witness :
    getNameFromCSR (fun _ => none) [3, 1, 4] = "" ∧
    getHandler
      { method := "POST", readBody := .ok [3, 1, 4],
        parseCSR := fun _ => none, tempFile := .ok "/tmp/csr4",
        writeTemp := none, closeTemp := none,
        lookPath := .ok "/usr/bin/certbot", start := none, wait := none,
        readCert := .ok [2, 7], prod := false, certomatFqdn := "" } =
      [Ev.createTemp "/tmp/csr4", Ev.lock,
       Ev.agentStart (certbotArgs "" "/tmp/csr4" "" false), Ev.agentWait,
       Ev.readCertFile, Ev.setHeader "Content-Type" "text/plain",
       Ev.writeBody [2, 7], Ev.cleanupResults, Ev.unlock,
       Ev.removeTemp "/tmp/csr4"] :=
  ⟨c6_parse_failure_graceful.1 (fun _ => none) [3, 1, 4] rfl,
   c6_parse_failure_graceful.2 _ [3, 1, 4] "/tmp/csr4" "/usr/bin/certbot" [2, 7]
     rfl rfl rfl rfl rfl rfl rfl rfl rfl rfl⟩

/-- Claim C7: when the agent exits zero and the well-known output file is
readable, the response carries content type text/plain and a body that is
byte-identical to the file contents, with no error response (first
conjunct); when the output file is absent or unreadable the call fails with
the 500 "cannot read cert" response instead and writes no body (second
conjunct: the exact trace). -/
theorem c7_success_response :
    (∀ (env : Env) (csr : List Nat) (t p : String) (c : List Nat),
      env.method = "POST" → env.readBody = .ok csr → env.tempFile = .ok t →
      env.writeTemp = none → env.closeTemp = none → env.lookPath = .ok p →
      env.start = none → env.wait = none → env.readCert = .ok c →
      Ev.setHeader "Content-Type" "text/plain" ∈ getHandler env ∧
      Ev.writeBody c ∈ getHandler env ∧
      ∀ (code : Nat) (w : String), Ev.httpError code w ∉ getHandler env) ∧
    (∀ (env : Env) (csr : List Nat) (t p e : String),
      env.method = "POST" → env.readBody = .ok csr → env.tempFile = .ok t →
      env.writeTemp = none → env.closeTemp = none → env.lookPath = .ok p →
      env.start = none → env.wait = none → env.readCert = .error e →
      getHandler env =
        [Ev.createTemp t, Ev.lock,
         Ev.agentStart (certbotArgs env.certomatFqdn t
           (getNameFromCSR env.parseCSR csr) env.prod),
         Ev.agentWait, Ev.httpError 500 ("cannot read cert: " ++ e),
         Ev.unlock, Ev.removeTemp t]) := by
  constructor
  · intro env csr t p c hm hrb htf hwt hct hlp hst hwa hrc
    rcases env with ⟨m, rb, pc, tf, wt, ct, lp, st, wa, rc, pr, fq⟩
    simp only at hm hrb htf hwt hct hlp hst hwa hrc
    subst hm hrb htf hwt hct hlp hst hwa hrc
    refine ⟨by simp [getHandler], by simp [getHandler], ?_⟩
    intro code w
    simp [getHandler]
  · intro env csr t p e hm hrb htf hwt hct hlp hst hwa hrc
    rcases env with ⟨m, rb, pc, tf, wt, ct, lp, st, wa, rc, pr, fq⟩
    simp only at hm hrb htf hwt hct hlp hst hwa hrc
    subst hm hrb htf hwt hct hlp hst hwa hrc
    simp [getHandler]

/-- Witness for C7: the response body is the file contents at a concrete
environment, and a concrete unreadable output file yields the 500
"cannot read cert" trace. -/
theorem c7_witness :
    (Ev.writeBody [5, 6] ∈ getHandler
      { method := "POST", readBody := .ok [1], parseCSR := fun _ => some "a.b",
        tempFile := .ok "/tmp/csr5", writeTemp := none, closeTemp := none,
        lookPath := .ok "/usr/bin/certbot", start := none, wait := none,
        readCert := .ok [5, 6], prod := false, certomatFqdn := "" }) ∧
    getHandler
      { method := "POST", readBody := .ok [1], parseCSR := fun _ => some "a.b",
        tempFile := .ok "/tmp/csr5", writeTemp := none, closeTemp := none,
        lookPath := .ok "/usr/bin/certbot", start := none, wait := none,
        readCert := .error "open 0000_cert.pem: no such file",
        prod := false, certomatFqdn := "" } =
      [Ev.createTemp "/tmp/csr5", Ev.lock,
       Ev.agentStart (certbotArgs "" "/tmp/csr5" "a.b" false), Ev.agentWait,
       Ev.httpError 500 ("cannot read cert: " ++ "open 0000_cert.pem: no such file"),
       Ev.unlock, Ev.removeTemp "/tmp/csr5"] :=
  ⟨(c7_success_response.1 _ [1] "/tmp/csr5" "/usr/bin/certbot" [5, 6]
      rfl rfl rfl rfl rfl rfl rfl rfl rfl).2.1,
   c7_success_response.2 _ [1] "/tmp/csr5" "/usr/bin/certbot"
     "open 0000_cert.pem: no such file" rfl rfl rfl rfl rfl rfl rfl rfl rfl⟩

/-- Claim C8: the argument list contains the test-certificate flag exactly
when prod is false (for operand values that are not themselves the literal
flag string), and the directory URL is the staging URL exactly when prod is
false, the empty string (production) exactly when prod is true. -/
theorem c8_prod_modes (f t n : String) (p : Bool)
    (hf : f ≠ "--test-cert") (ht : t ≠ "--test-cert") (hn : n ≠ "--test-cert") :
    (("--test-cert" ∈ certbotArgs f t n p) ↔ p = false) ∧
    (dirUrl p = "https://acme-staging.api.letsencrypt.org/directory" ↔ p = false) ∧
    (dirUrl p = "" ↔ p = true) := by
  cases p
  · refine ⟨?_, ?_, ?_⟩ <;> simp [certbotArgs, dirUrl]
  · refine ⟨?_, ?_, ?_⟩ <;> simp [certbotArgs, dirUrl]
    exact ⟨fun h => hf h.symm, fun h => ht h.symm, fun h => hn h.symm⟩

/-- Witness for C8: with prod unset the flag is present and the staging URL
is selected, at concrete operand values. -/
theorem c8_witness :
    ("" : String) ≠ "--test-cert" ∧ ("/tmp/csr9" : String) ≠ "--test-cert" ∧
      ("host.example.com" : String) ≠ "--test-cert" ∧
      ("--test-cert" ∈ certbotArgs "" "/tmp/csr9" "host.example.com" false) ∧
      dirUrl false = "https://acme-staging.api.letsencrypt.org/directory" :=
  ⟨by decide, by decide, by decide,
   ((c8_prod_modes "" "/tmp/csr9" "host.example.com" false (by decide) (by decide)
      (by decide)).1).2 rfl,
   ((c8_prod_modes "" "/tmp/csr9" "host.example.com" false (by decide) (by decide)
      (by decide)).2.1).2 rfl⟩

/-- Counterexample for C9: the claim that the DomainSet satisfies the
stated invariant for every configured domain value is false — the value is
stored verbatim, so the configured value "Example.COM" (which passes the
non-empty startup check at line 181) produces an entry that is not
lower-case. -/
theorem c9_counterexample :
    "Example.COM".toList ≠ [] ∧
      ¬domainSetInvariant (mkDomainNames "Example.COM".toList) := by
  refine ⟨by decide, fun hinv => ?_⟩
  have hmem : "Example.COM".toList ∈ mkDomainNames "Example.COM".toList := by
    simp [mkDomainNames]
  exact absurd (hinv.2 _ hmem).1 (by decide)

/-- Claim C9 as amended: for every non-empty configured domain value the
DomainSet is non-empty, and it satisfies the full stated invariant exactly
when the configured value is itself already lower-case with no trailing
dot — the construction at lines 185-187 applies no normalization. -/
theorem c9_domainset (domain : List Char) (hne : domain ≠ []) :
    mkDomainNames domain ≠ [] ∧
      ((domain.map Char.toLower = domain ∧ domain.getLast? ≠ some '.') →
        domainSetInvariant (mkDomainNames domain)) := by
  refine ⟨by simp [mkDomainNames], fun hd => ⟨by simp [mkDomainNames], ?_⟩⟩
  intro d hu
  have hdd : d = domain := by simpa [mkDomainNames] using hu
  rw [hdd]
  exact hd

/-- Witness for C9: a lower-case dot-free-tail configured value yields a
DomainSet satisfying the invariant. -/
theorem c9_witness :
    "example.com".toList ≠ [] ∧
      domainSetInvariant (mkDomainNames "example.com".toList) :=
  ⟨by decide, (c9_domainset "example.com".toList (by decide)).2 (by decide)⟩

/-- Claim C10: `main` assigns the computed gateway FQDN to a fresh local
(the shadowing short declaration at line 188), so the package-level
variable stays empty, and in every argument list the handler builds, the
value at the position following the http-01 address flag is the empty
string. -/
theorem c10_empty_http01_addr (domain t n : String) (p : Bool) :
    (mainCertomatFqdn domain).1 = "" ∧
    (mainCertomatFqdn domain).2 = "certomat." ++ domain ∧
    (certbotArgs (mainCertomatFqdn domain).1 t n p).get? 3 = some "--http-01-addr" ∧
    (certbotArgs (mainCertomatFqdn domain).1 t n p).get? 4 = some "" := by
  cases p <;> exact ⟨rfl, rfl, rfl, rfl⟩

end Certomat
